import Mathlib

set_option linter.unusedVariables false

/-! Shallow embedding of touchHLE's Objective-C class handling
    (src/objc/classes.rs): class/metaclass linking from host templates,
    placeholder creation, and ingestion of binary class and category lists.
    Guest memory is modelled as an initial word assignment plus a list of
    word writes (newest first); recursion in `link_class_inner` is made
    explicit with fuel, and Rust panics are a dedicated outcome. -/

namespace TouchHLE

/-- Generic pointer to an Objective-C class or metaclass (a guest address). -/
abbrev Class := Nat

/-- The nil reference (guest address 0). -/
def nil : Class := 0

/-- Selector identifier (an abstract id standing for the guest address of the
    selector string). -/
abbrev SEL := Nat

/-- Method implementation: a host function or a guest code address. -/
inductive IMP where
  | host (imp : Nat)
  | guest (addr : Nat)
deriving DecidableEq, Repr

/-- Template for a class defined by host code (ClassTemplate in classes.rs).
    Method lists are (selector name, host implementation id) pairs. -/
structure ClassTemplate where
  name : String
  superclass : Option String
  class_methods : List (String × Nat)
  instance_methods : List (String × Nat)

/-- Internal representation of a resolved class or metaclass
    (ClassHostObject in classes.rs). The methods HashMap is modelled as an
    association list where insertion removes the previous binding. -/
structure ClassHostObject where
  name : String
  is_metaclass : Bool
  superclass : Class
  methods : List (SEL × IMP)
deriving DecidableEq

/-- Placeholder for classes referenced by the app that have no implementation
    (UnimplementedClass in classes.rs). -/
structure UnimplementedClass where
  name : String
  is_metaclass : Bool
deriving DecidableEq

/-- Host object sum, standing for the Box of dyn AnyHostObject values that
    classes.rs stores for classes. -/
inductive AnyHostObject where
  | classHost (c : ClassHostObject)
  | unimplemented (u : UnimplementedClass)
deriving DecidableEq

/-- Association-list lookup, modelling HashMap lookup. -/
def assocLookup {α β : Type} [DecidableEq α] (k : α) : List (α × β) → Option β
  | [] => none
  | p :: rest => if p.1 = k then some p.2 else assocLookup k rest

/-- Modelled from the spec: the Template Catalog. CLASS_LISTS and
    dyld::search_lists are outside the given sources; per the spec the catalog
    is a static searchable table of host class templates, looked up by name. -/
abbrev Catalog := List (String × ClassTemplate)

/-- ObjC::find_template: search the catalog by class name. -/
def find_template (cat : Catalog) (name : String) : Option ClassTemplate :=
  assocLookup name cat

/-- Combined state threaded through the registry operations: the ObjC runtime
    state (class registry, selector registry, host object store) together with
    the guest memory (Mem). Guest memory is an initial word assignment
    `initMem` shadowed by the write list `writes` (newest first); `cstrAt` and
    `methListAt` model the external C-string reader and method-list decoder
    of the spec. -/
structure ObjCState where
  classes : List (String × Class)
  selectors : List (String × SEL)
  nextSel : SEL
  objects : List (Class × AnyHostObject)
  writes : List (Nat × Nat)
  initMem : Nat → Nat
  cstrAt : Nat → String
  methListAt : Nat → List (String × Nat)
  nextAddr : Nat

/-- Read the guest memory word at address `a`; writes shadow initial memory. -/
def readWord (s : ObjCState) (a : Nat) : Nat :=
  match assocLookup a s.writes with
  | some v => v
  | none => s.initMem a

/-- Modelled from the spec: writeIsa — store a class reference in the isa
    word of the object at `c` (ObjC::write_isa is outside the given sources). -/
def write_isa (c : Class) (v : Class) (s : ObjCState) : ObjCState :=
  { s with writes := (c, v) :: s.writes }

/-- Modelled from the spec: readIsa — read the class reference stored in the
    isa word of the object at `c` (ObjC::read_isa is outside the given
    sources; the isa is the word at offset 0). -/
def read_isa (c : Class) (s : ObjCState) : Class := readWord s c

/-- Modelled from the spec: allocatePermanentObject — allocate a fresh guest
    object carrying the given isa and host payload (ObjC::alloc_static_object
    is outside the given sources). Fresh addresses come from a bump counter. -/
def alloc_static_object (isa : Class) (obj : AnyHostObject) (s : ObjCState) :
    Class × ObjCState :=
  (s.nextAddr,
   { s with writes := (s.nextAddr, isa) :: s.writes,
            objects := (s.nextAddr, obj) :: s.objects,
            nextAddr := s.nextAddr + 4 })

/-- Modelled from the spec: registerExistingObject — attach a host payload to
    an object that already exists in guest memory
    (ObjC::register_static_object is outside the given sources). -/
def register_static_object (addr : Class) (obj : AnyHostObject)
    (s : ObjCState) : ObjCState :=
  { s with objects := (addr, obj) :: s.objects }

/-- Insert into a method table with HashMap semantics: any existing binding
    for the selector is overwritten. -/
def mtInsert (t : List (SEL × IMP)) (k : SEL) (v : IMP) : List (SEL × IMP) :=
  (k, v) :: t.filter (fun p => p.1 ≠ k)

/-- Look a selector up in a method table. -/
def mtLookup (t : List (SEL × IMP)) (k : SEL) : Option IMP :=
  assocLookup k t

/-- Build a template method table. Every method name must already be in the
    selector registry (from_template indexes objc.selectors and the source
    panics otherwise), modelled as `none`. -/
def from_template_methods (pairs : List (String × Nat))
    (sels : List (String × SEL)) : Option (List (SEL × IMP)) :=
  pairs.foldlM
    (fun mt p =>
      (assocLookup p.1 sels).map (fun sel => mtInsert mt sel (.host p.2)))
    []

/-- ClassHostObject::from_template. Returns `none` where the source panics
    (a method name missing from the selector registry). -/
def from_template (t : ClassTemplate) (is_metaclass : Bool)
    (superclass : Class) (sels : List (String × SEL)) :
    Option ClassHostObject :=
  (from_template_methods
      (if is_metaclass then t.class_methods else t.instance_methods) sels).map
    (fun mt => ⟨t.name, is_metaclass, superclass, mt⟩)

/-- ObjC::get_class: registry lookup by name, following the isa to the
    metaclass when requested. -/
def get_class (s : ObjCState) (name : String) (is_metaclass : Bool) :
    Option Class :=
  (assocLookup name s.classes).map
    (fun c => if is_metaclass then read_isa c s else c)

/-- Outcome of a linking operation: success, a Rust panic (panic, assert or
    missing-selector index), or recursion fuel exhausted. -/
inductive LinkOut where
  | ok (c : Class) (s : ObjCState)
  | panicOut
  | noFuel

/-- Final steps of ObjC::link_class_inner (classes.rs lines 424-438):
    allocate the metaclass with nil isa, patch its isa to itself, allocate
    the class with the metaclass as isa, record the class in the registry,
    and return the class or metaclass per the flag. -/
def finishPair (s : ObjCState) (name : String)
    (cho mho : AnyHostObject) (is_metaclass : Bool) : LinkOut :=
  let am := alloc_static_object nil mho s
  let s2 := write_isa am.1 am.1 am.2
  let ac := alloc_static_object am.1 cho s2
  let s4 := { ac.2 with classes := (name, ac.1) :: ac.2.classes }
  .ok (if is_metaclass then am.1 else ac.1) s4

/-- ObjC::link_class_inner, with explicit recursion fuel (the Rust function
    recurses on the superclass chain without a bound). -/
def link_class_inner (cat : Catalog) :
    Nat → ObjCState → String → Bool → Bool → LinkOut
  | 0, _, _, _, _ => .noFuel
  | f + 1, s, name, is_metaclass, use_placeholder =>
    match get_class s name is_metaclass with
    | some c => .ok c s
    | none =>
      match find_template cat name with
      | some template =>
        match template.superclass with
        | some sn =>
          if (find_template cat sn).isSome then
            match link_class_inner cat f s sn false true with
            | .ok sc s1 =>
              match from_template template false sc s1.selectors with
              | some cho =>
                match link_class_inner cat f s1 sn true true with
                | .ok scm s2 =>
                  match from_template template true scm s2.selectors with
                  | some mho =>
                    finishPair s2 name (.classHost cho) (.classHost mho)
                      is_metaclass
                  | none => .panicOut
                | .panicOut => .panicOut
                | .noFuel => .noFuel
              | none => .panicOut
            | .panicOut => .panicOut
            | .noFuel => .noFuel
          else .panicOut
        | none =>
          match from_template template false nil s.selectors with
          | some cho =>
            match from_template template true nil s.selectors with
            | some mho =>
              finishPair s name (.classHost cho) (.classHost mho) is_metaclass
            | none => .panicOut
          | none => .panicOut
      | none =>
        if use_placeholder then
          finishPair s name (.unimplemented ⟨name, false⟩)
            (.unimplemented ⟨name, true⟩) is_metaclass
        else .panicOut

/-- ObjC::link_class: linking entry point for the dynamic linker
    (placeholders permitted). -/
def link_class (cat : Catalog) (f : Nat) (s : ObjCState) (name : String)
    (is_metaclass : Bool) : LinkOut :=
  link_class_inner cat f s name is_metaclass true

/-- ObjC::get_known_class: entry point for host functions (no placeholders,
    always the class side). -/
def get_known_class (cat : Catalog) (f : Nat) (s : ObjCState)
    (name : String) : LinkOut :=
  link_class_inner cat f s name false false

/-- Layout of class_t in the app binary: five words at offsets 0,4,8,12,16. -/
structure class_t where
  isa : Class
  superclass : Class
  _cache : Nat
  _vtable : Nat
  data : Nat

/-- Read a class_t record from guest memory. -/
def read_class_t (s : ObjCState) (a : Nat) : class_t :=
  ⟨readWord s a, readWord s (a + 4), readWord s (a + 8), readWord s (a + 12),
   readWord s (a + 16)⟩

/-- Layout of class_rw_t in the app binary: ten words at offsets 0..36. -/
structure class_rw_t where
  _flags : Nat
  _instance_start : Nat
  _instance_size : Nat
  _reserved : Nat
  name : Nat
  base_methods : Nat
  _base_protocols : Nat
  _ivars : Nat
  _weak_ivar_layout : Nat
  _base_properties : Nat

/-- Read a class_rw_t record from guest memory. -/
def read_class_rw_t (s : ObjCState) (a : Nat) : class_rw_t :=
  ⟨readWord s a, readWord s (a + 4), readWord s (a + 8), readWord s (a + 12),
   readWord s (a + 16), readWord s (a + 20), readWord s (a + 24),
   readWord s (a + 28), readWord s (a + 32), readWord s (a + 36)⟩

/-- Layout of category_t in the app binary: six words at offsets 0..20. -/
structure category_t where
  name : Nat
  «class» : Class
  _instance_methods : Nat
  _class_methods : Nat
  _protocols : Nat
  _property_list : Nat

/-- Read a category_t record from guest memory. -/
def read_category_t (s : ObjCState) (a : Nat) : category_t :=
  ⟨readWord s a, readWord s (a + 4), readWord s (a + 8), readWord s (a + 12),
   readWord s (a + 16), readWord s (a + 20)⟩

/-- Modelled from the spec: registerSelector — look a selector name up,
    registering it on demand (the selector registry implementation is outside
    the given sources). -/
def register_selector (name : String) (s : ObjCState) : SEL × ObjCState :=
  match assocLookup name s.selectors with
  | some sel => (sel, s)
  | none =>
    (s.nextSel,
     { s with selectors := (name, s.nextSel) :: s.selectors,
              nextSel := s.nextSel + 1 })

/-- Modelled from the spec: ClassHostObject::add_methods_from_bin (methods.rs
    is outside the given sources) — decode the method list at `ptr` and insert
    every (selector, implementation) pair into the table, registering
    previously-unseen selectors on demand rather than failing. -/
def add_methods_from_bin (mt : List (SEL × IMP)) (ptr : Nat) (s : ObjCState) :
    List (SEL × IMP) × ObjCState :=
  (s.methListAt ptr).foldl
    (fun acc p =>
      let r := register_selector p.1 acc.2
      (mtInsert acc.1 r.1 (.guest p.2), r.2))
    (mt, s)

/-- ClassHostObject::from_bin: build a host object for a class straight from
    the binary records, populating its method table from the class's own
    method list pointer when that pointer is non-null. -/
def from_bin (cls : Class) (is_metaclass : Bool) (s : ObjCState) :
    ClassHostObject × ObjCState :=
  let data1 := read_class_t s cls
  let data2 := read_class_rw_t s data1.data
  let name := s.cstrAt data2.name
  let host : ClassHostObject := ⟨name, is_metaclass, data1.superclass, []⟩
  if data2.base_methods ≠ 0 then
    let r := add_methods_from_bin host.methods data2.base_methods s
    ({ host with methods := r.1 }, r.2)
  else (host, s)

/-- A Mach-O section: guest address and byte size. -/
structure MachOSection where
  addr : Nat
  size : Nat

/-- Modelled from the spec: the loaded binary may expose a class-list section
    and a category-list section (MachO and get_section are outside the given
    sources). -/
structure MachO where
  objc_classlist : Option MachOSection
  objc_catlist : Option MachOSection

/-- Outcome of a binary ingestion operation. -/
inductive RegOut where
  | ok (s : ObjCState)
  | panicOut

/-- Loop of ObjC::register_bin_classes, one iteration per 4-byte entry:
    read the class pointer, follow its isa to the metaclass, build both host
    objects from the binary, require equal names, register both objects and
    insert the class into the registry. -/
def register_bin_classes_loop (addr : Nat) :
    Nat → Nat → ObjCState → RegOut
  | 0, _, s => .ok s
  | k + 1, i, s =>
    let cls := readWord s (addr + 4 * i)
    let metaclass := read_isa cls s
    let rc := from_bin cls false s
    let rm := from_bin metaclass true rc.2
    if rc.1.name = rm.1.name then
      let s3 := register_static_object cls (.classHost rc.1) rm.2
      let s4 := register_static_object metaclass (.classHost rm.1) s3
      let s5 := { s4 with classes := (rc.1.name, cls) :: s4.classes }
      register_bin_classes_loop addr k (i + 1) s5
    else .panicOut

/-- ObjC::register_bin_classes: no section is a no-op; a byte size that is
    not a multiple of 4 fails the assert (panic); otherwise ingest each
    entry. -/
def register_bin_classes (bin : MachO) (s : ObjCState) : RegOut :=
  match bin.objc_classlist with
  | none => .ok s
  | some list =>
    if list.size % 4 = 0 then
      register_bin_classes_loop list.addr (list.size / 4) 0 s
    else .panicOut

/-- Loop of ObjC::register_bin_categories: each iteration reads the category
    record and only logs it (applying the category is a TODO in the source),
    so the state is passed on unchanged. -/
def register_bin_categories_loop (addr : Nat) :
    Nat → Nat → ObjCState → RegOut
  | 0, _, s => .ok s
  | k + 1, i, s =>
    let cat_ptr := readWord s (addr + 4 * i)
    let data := read_category_t s cat_ptr
    let _name := s.cstrAt data.name
    let _cls := data.«class»
    register_bin_categories_loop addr k (i + 1) s

/-- ObjC::register_bin_categories: no section is a no-op; a byte size that is
    not a multiple of 4 fails the assert (panic); otherwise loop over the
    entries (which, in the source as written, only logs them). -/
def register_bin_categories (bin : MachO) (s : ObjCState) : RegOut :=
  match bin.objc_catlist with
  | none => .ok s
  | some list =>
    if list.size % 4 = 0 then
      register_bin_categories_loop list.addr (list.size / 4) 0 s
    else .panicOut

/-- Allocator well-formedness: every registered class address lies strictly
    below the allocation frontier (fresh allocations cannot collide with
    registered classes). -/
def RegWF (s : ObjCState) : Prop :=
  ∀ (nm : String) (c : Nat), assocLookup nm s.classes = some c → c < s.nextAddr

/-- Default state, used only as the junk value of `outSt`. -/
def defaultSt : ObjCState :=
  ⟨[], [], 0, [], [], fun _ => 0, fun _ => "", fun _ => [], 4⟩

/-- Extract the returned class of a successful link outcome. -/
def outClass : LinkOut → Class
  | .ok c _ => c
  | _ => 0

/-- Extract the resulting state of a successful link outcome. -/
def outSt : LinkOut → ObjCState
  | .ok _ s => s
  | _ => defaultSt

/-- State produced by the tail of link_class_inner when starting from `s`:
    metaclass at `s.nextAddr` (isa patched to itself), class at
    `s.nextAddr + 4` (isa pointing at the metaclass), class recorded in the
    registry. `finishPair` computes exactly this (see `finishPair_eq`). -/
def finishState (s : ObjCState) (name : String) (cho mho : AnyHostObject) :
    ObjCState :=
  { s with
    classes := (name, s.nextAddr + 4) :: s.classes,
    objects := (s.nextAddr + 4, cho) :: (s.nextAddr, mho) :: s.objects,
    writes := (s.nextAddr + 4, s.nextAddr) :: (s.nextAddr, s.nextAddr) ::
      (s.nextAddr, nil) :: s.writes,
    nextAddr := s.nextAddr + 4 + 4 }

/-- Host template for a leaf class with one class method and one instance
    method, used as concrete input for witnesses. -/
def tmplFoo : ClassTemplate := ⟨"Foo", none, [("cfoo", 6)], [("bar", 5)]⟩

/-- Host template for a root class, used as concrete input for witnesses. -/
def tmplParent : ClassTemplate := ⟨"Parent", none, [], []⟩

/-- Host template for a subclass of Parent, concrete input for witnesses. -/
def tmplChild : ClassTemplate := ⟨"Child", some "Parent", [], []⟩

/-- One-class catalog for witnesses. -/
def cat0 : Catalog := [("Foo", tmplFoo)]

/-- Parent/Child catalog for witnesses. -/
def cat1 : Catalog := [("Parent", tmplParent), ("Child", tmplChild)]

/-- Initial state for witnesses: empty registry, the selectors used by the
    templates preregistered, allocation frontier at 4. -/
def st0 : ObjCState :=
  ⟨[], [("bar", 5), ("cfoo", 6)], 100, [], [], fun _ => 0, fun _ => "",
   fun _ => [], 4⟩

/-- State with a class already registered at address 8, for witnesses. -/
def stReg : ObjCState := { st0 with classes := [("Obj", 8)] }

/-- Binary with no Objective-C sections, for witnesses. -/
def binNone : MachO := ⟨none, none⟩

/-- Binary whose class-list and category-list sections have byte size 6
    (not a multiple of 4), for witnesses. -/
def binBad : MachO := ⟨some ⟨0, 6⟩, some ⟨0, 6⟩⟩

/-- Binary with a one-entry category list at address 100, for the category
    no-merge demonstration. -/
def binCat : MachO := ⟨none, some ⟨100, 4⟩⟩

/-- State where class Foo is registered at address 8 with one method under
    selector 5, and guest memory at 100 points to a category record targeting
    it whose method list would add a method named baz. -/
def stCat : ObjCState :=
  { st0 with
    classes := [("Foo", 8)],
    objects := [(8, .classHost ⟨"Foo", false, 0, [(5, .host 7)]⟩)],
    initMem := fun a =>
      if a = 100 then 200 else if a = 200 then 300 else
      if a = 204 then 8 else if a = 208 then 400 else 0,
    cstrAt := fun _ => "FooCategory",
    methListAt := fun _ => [("baz", 11)] }

/-- Witness computation: first link of Foo (class side) from `st0`. -/
def w2a : LinkOut := link_class cat0 2 st0 "Foo" false

/-- Witness computation: second link of Foo (metaclass side) after `w2a`. -/
def w2b : LinkOut := link_class cat0 2 (outSt w2a) "Foo" true

/-- Witness computation: second link of Foo (class side) after `w2a`. -/
def w4b : LinkOut := link_class cat0 2 (outSt w2a) "Foo" false

/-- Witness computation: link of Child from `st0` over the Parent/Child
    catalog. -/
def w5 : LinkOut := link_class cat1 2 st0 "Child" false

/-! Basic lemmas about the embedding. -/

theorem assocLookup_cons_self {α β : Type} [DecidableEq α] (k : α) (v : β)
    (l : List (α × β)) : assocLookup k ((k, v) :: l) = some v := by
  simp [assocLookup]

theorem assocLookup_cons_ne {α β : Type} [DecidableEq α] {k k' : α} (v : β)
    (l : List (α × β)) (h : k' ≠ k) :
    assocLookup k ((k', v) :: l) = assocLookup k l := by
  simp [assocLookup, h]

theorem finishPair_eq (s : ObjCState) (name : String)
    (cho mho : AnyHostObject) (b : Bool) :
    finishPair s name cho mho b =
      .ok (if b then s.nextAddr else s.nextAddr + 4)
        (finishState s name cho mho) := rfl

theorem get_class_none_iff {s : ObjCState} {name : String} {b : Bool} :
    get_class s name b = none ↔ assocLookup name s.classes = none := by
  simp [get_class]

theorem link_hit {cat : Catalog} {s : ObjCState} {name : String}
    {b : Bool} {c : Class} (f : Nat) (ph : Bool)
    (h : get_class s name b = some c) :
    link_class_inner cat (f + 1) s name b ph = .ok c s := by
  simp [link_class_inner, h]

@[simp] theorem finishState_nextAddr (s : ObjCState) (name : String)
    (cho mho : AnyHostObject) :
    (finishState s name cho mho).nextAddr = s.nextAddr + 4 + 4 := rfl

@[simp] theorem finishState_classes (s : ObjCState) (name : String)
    (cho mho : AnyHostObject) :
    (finishState s name cho mho).classes =
      (name, s.nextAddr + 4) :: s.classes := rfl

@[simp] theorem finishState_objects (s : ObjCState) (name : String)
    (cho mho : AnyHostObject) :
    (finishState s name cho mho).objects =
      (s.nextAddr + 4, cho) :: (s.nextAddr, mho) :: s.objects := rfl

@[simp] theorem finishState_writes (s : ObjCState) (name : String)
    (cho mho : AnyHostObject) :
    (finishState s name cho mho).writes =
      (s.nextAddr + 4, s.nextAddr) :: (s.nextAddr, s.nextAddr) ::
        (s.nextAddr, nil) :: s.writes := rfl

@[simp] theorem finishState_selectors (s : ObjCState) (name : String)
    (cho mho : AnyHostObject) :
    (finishState s name cho mho).selectors = s.selectors := rfl

@[simp] theorem finishState_initMem (s : ObjCState) (name : String)
    (cho mho : AnyHostObject) :
    (finishState s name cho mho).initMem = s.initMem := rfl

@[simp] theorem finishState_cstrAt (s : ObjCState) (name : String)
    (cho mho : AnyHostObject) :
    (finishState s name cho mho).cstrAt = s.cstrAt := rfl

@[simp] theorem finishState_methListAt (s : ObjCState) (name : String)
    (cho mho : AnyHostObject) :
    (finishState s name cho mho).methListAt = s.methListAt := rfl

@[simp] theorem finishState_nextSel (s : ObjCState) (name : String)
    (cho mho : AnyHostObject) :
    (finishState s name cho mho).nextSel = s.nextSel := rfl

theorem from_template_shape {t : ClassTemplate} {b : Bool} {sc : Class}
    {sels : List (String × SEL)} {cho : ClassHostObject}
    (h : from_template t b sc sels = some cho) :
    ∃ mt, cho = ⟨t.name, b, sc, mt⟩ := by
  simp only [from_template, Option.map_eq_some'] at h
  obtain ⟨mt, _, rfl⟩ := h
  exact ⟨mt, rfl⟩

/-- Inversion principle for a successful `link_class_inner` call: the
    allocation frontier is monotone, existing registry entries survive,
    allocator well-formedness is preserved, and the call was either a pure
    registry hit (state unchanged) or a fresh construction of a
    class/metaclass pair from the template (or placeholder) via
    `finishState`. -/
theorem link_main {cat : Catalog} :
    ∀ (f : Nat) {s : ObjCState} {name : String} {b ph : Bool} {r : Class}
      {s' : ObjCState},
      link_class_inner cat f s name b ph = .ok r s' →
      s.nextAddr ≤ s'.nextAddr ∧
      (∀ nm c, assocLookup nm s.classes = some c →
        assocLookup nm s'.classes = some c) ∧
      (RegWF s → RegWF s') ∧
      ((get_class s name b = some r ∧ s' = s) ∨
       (∃ s₀ cho mho,
          get_class s name b = none ∧ s.nextAddr ≤ s₀.nextAddr ∧
          s' = finishState s₀ name cho mho ∧
          r = (if b then s₀.nextAddr else s₀.nextAddr + 4) ∧
          ((∃ t sc mt scm mmt, find_template cat name = some t ∧
              cho = .classHost ⟨t.name, false, sc, mt⟩ ∧
              mho = .classHost ⟨t.name, true, scm, mmt⟩) ∨
           (find_template cat name = none ∧ ph = true ∧
              cho = .unimplemented ⟨name, false⟩ ∧
              mho = .unimplemented ⟨name, true⟩)))) := by
  intro f
  induction f with
  | zero =>
    intro s name b ph r s' h
    simp [link_class_inner] at h
  | succ f ih =>
    intro s name b ph r s' h
    unfold link_class_inner at h
    split at h
    · -- registry hit
      cases h
      exact ⟨le_refl _, fun nm c hc => hc, fun w => w, Or.inl ⟨by assumption, rfl⟩⟩
    · rename_i hmiss
      have hmiss' : assocLookup name s.classes = none :=
        get_class_none_iff.mp hmiss
      split at h
      · rename_i template htmpl
        split at h
        · -- template with a superclass
          rename_i sn hsn
          split at h
          · rename_i hsup
            split at h
            · rename_i sc s1 heq1
              split at h
              · rename_i cho heqc
                split at h
                · rename_i scm s2 heq2
                  split at h
                  · rename_i mho heqm
                    rw [finishPair_eq] at h
                    cases h
                    obtain ⟨le1, pres1, wf1, _⟩ := ih heq1
                    obtain ⟨le2, pres2, wf2, _⟩ := ih heq2
                    obtain ⟨mt, rfl⟩ := from_template_shape heqc
                    obtain ⟨mmt, rfl⟩ := from_template_shape heqm
                    refine ⟨?_, ?_, ?_, Or.inr ⟨s2, _, _, hmiss, le1.trans le2,
                      rfl, rfl, Or.inl ⟨template, sc, mt, scm, mmt, htmpl, rfl, rfl⟩⟩⟩
                    · simp only [finishState_nextAddr]
                      omega
                    · intro nm c hc
                      have hne : name ≠ nm := by
                        intro hcontra
                        rw [hcontra] at hmiss'
                        rw [hmiss'] at hc
                        exact Option.noConfusion hc
                      simp only [finishState_classes]
                      rw [assocLookup_cons_ne _ _ hne]
                      exact pres2 _ _ (pres1 _ _ hc)
                    · intro w
                      intro nm c hc
                      simp only [finishState_classes, finishState_nextAddr] at hc ⊢
                      rw [show ∀ l : List (String × Class),
                            assocLookup nm ((name, s2.nextAddr + 4) :: l) =
                            if name = nm then some (s2.nextAddr + 4)
                            else assocLookup nm l from fun l => rfl] at hc
                      split at hc
                      · cases hc; omega
                      · have := wf2 (wf1 w) _ _ hc
                        omega
                  · simp at h
                · simp at h
                · simp at h
              · simp at h
            · simp at h
            · simp at h
          · simp at h
        · -- template without a superclass
          split at h
          · rename_i cho heqc
            split at h
            · rename_i mho heqm
              rw [finishPair_eq] at h
              cases h
              obtain ⟨mt, rfl⟩ := from_template_shape heqc
              obtain ⟨mmt, rfl⟩ := from_template_shape heqm
              refine ⟨?_, ?_, ?_, Or.inr ⟨s, _, _, hmiss, le_refl _,
                rfl, rfl, Or.inl ⟨template, nil, mt, nil, mmt, htmpl, rfl, rfl⟩⟩⟩
              · simp only [finishState_nextAddr]; omega
              · intro nm c hc
                have hne : name ≠ nm := by
                  intro hcontra
                  rw [hcontra] at hmiss'
                  rw [hmiss'] at hc
                  exact Option.noConfusion hc
                simp only [finishState_classes]
                rw [assocLookup_cons_ne _ _ hne]
                exact hc
              · intro w nm c hc
                simp only [finishState_classes, finishState_nextAddr] at hc ⊢
                rw [show ∀ l : List (String × Class),
                      assocLookup nm ((name, s.nextAddr + 4) :: l) =
                      if name = nm then some (s.nextAddr + 4)
                      else assocLookup nm l from fun l => rfl] at hc
                split at hc
                · cases hc; omega
                · have := w _ _ hc
                  omega
            · simp at h
          · simp at h
      · -- placeholder branch
        rename_i htmpl
        split at h
        · rename_i hph
          rw [finishPair_eq] at h
          cases h
          refine ⟨?_, ?_, ?_, Or.inr ⟨s, _, _, hmiss, le_refl _, rfl, rfl,
            Or.inr ⟨htmpl, hph, rfl, rfl⟩⟩⟩
          · simp only [finishState_nextAddr]; omega
          · intro nm c hc
            have hne : name ≠ nm := by
              intro hcontra
              rw [hcontra] at hmiss'
              rw [hmiss'] at hc
              exact Option.noConfusion hc
            simp only [finishState_classes]
            rw [assocLookup_cons_ne _ _ hne]
            exact hc
          · intro w nm c hc
            simp only [finishState_classes, finishState_nextAddr] at hc ⊢
            rw [show ∀ l : List (String × Class),
                  assocLookup nm ((name, s.nextAddr + 4) :: l) =
                  if name = nm then some (s.nextAddr + 4)
                  else assocLookup nm l from fun l => rfl] at hc
            split at hc
            · cases hc; omega
            · have := w _ _ hc
              omega
        · simp at h

theorem finishPair_eq_false (s : ObjCState) (name : String)
    (cho mho : AnyHostObject) :
    finishPair s name cho mho false =
      .ok (s.nextAddr + 4) (finishState s name cho mho) := rfl

theorem finishPair_eq_true (s : ObjCState) (name : String)
    (cho mho : AnyHostObject) :
    finishPair s name cho mho true =
      .ok s.nextAddr (finishState s name cho mho) := rfl

theorem readWord_finishState_cls (s : ObjCState) (name : String)
    (cho mho : AnyHostObject) :
    readWord (finishState s name cho mho) (s.nextAddr + 4) = s.nextAddr := by
  simp [readWord, finishState_writes, assocLookup]

theorem readWord_finishState_meta (s : ObjCState) (name : String)
    (cho mho : AnyHostObject) :
    readWord (finishState s name cho mho) s.nextAddr = s.nextAddr := by
  simp [readWord, finishState_writes, assocLookup]

theorem readWord_finishState_old (s : ObjCState) (name : String)
    (cho mho : AnyHostObject) (a : Nat) (h : a < s.nextAddr) :
    readWord (finishState s name cho mho) a = readWord s a := by
  have h1 : ¬(s.nextAddr + 4 = a) := by omega
  have h2 : ¬(s.nextAddr = a) := by omega
  simp [readWord, finishState_writes, assocLookup, h1, h2]

theorem link_ok_registered {cat : Catalog} {f : Nat} {s : ObjCState}
    {name : String} {b ph : Bool} {r : Class} {s' : ObjCState}
    (h : link_class_inner cat f s name b ph = .ok r s') :
    ∃ c, assocLookup name s'.classes = some c ∧
      r = (if b then read_isa c s' else c) := by
  obtain ⟨-, -, -, hd⟩ := link_main f h
  rcases hd with ⟨hg, rfl⟩ | ⟨s₀, cho, mho, -, -, rfl, rfl, -⟩
  · simp only [get_class, Option.map_eq_some'] at hg
    obtain ⟨c, hc, hv⟩ := hg
    exact ⟨c, hc, hv.symm⟩
  · refine ⟨s₀.nextAddr + 4,
      by simp [finishState_classes, assocLookup_cons_self], ?_⟩
    cases b
    · simp
    · simp [read_isa, readWord_finishState_cls]

theorem link_ok_getClass {cat : Catalog} {f : Nat} {s : ObjCState}
    {name : String} {b ph : Bool} {r : Class} {s' : ObjCState}
    (h : link_class_inner cat f s name b ph = .ok r s') :
    get_class s' name b = some r := by
  obtain ⟨c, hc, rfl⟩ := link_ok_registered h
  simp [get_class, hc]

/-- A template whose declared superclass is itself can never link
    successfully: the recursive superclass resolution repeats the same
    unregistered lookup forever (fuel always runs out). -/
theorem link_self_super_not_ok {cat : Catalog} {s : ObjCState} {name : String}
    {t : ClassTemplate}
    (hmiss : assocLookup name s.classes = none)
    (ht : find_template cat name = some t)
    (hsup : t.superclass = some name) :
    ∀ (f : Nat) (b ph : Bool) (r : Class) (s' : ObjCState),
      link_class_inner cat f s name b ph ≠ .ok r s' := by
  intro f
  induction f with
  | zero =>
    intro b ph r s' h
    simp [link_class_inner] at h
  | succ f ih =>
    intro b ph r s' h
    unfold link_class_inner at h
    split at h
    · rename_i c heq
      rw [get_class_none_iff.mpr hmiss] at heq
      exact Option.noConfusion heq
    · split at h
      · rename_i tmpl htm
        have htt : tmpl = t := by
          rw [ht] at htm
          exact (Option.some.injEq _ _).mp htm.symm
        subst htt
        split at h
        · rename_i sn hsn
          have hsn' : sn = name := by
            rw [hsup] at hsn
            exact ((Option.some.injEq _ _).mp hsn).symm
          subst hsn'
          split at h
          · split at h
            · rename_i sc s1 heq1
              exact ih false true sc s1 heq1
            · simp at h
            · simp at h
          · simp at h
        · rename_i hsn
          rw [hsup] at hsn
          exact Option.noConfusion hsn
      · rename_i htm
        rw [ht] at htm
        exact Option.noConfusion htm

theorem register_bin_categories_loop_ok (addr : Nat) :
    ∀ (k i : Nat) (s : ObjCState),
      register_bin_categories_loop addr k i s = .ok s := by
  intro k
  induction k with
  | zero => intro i s; rfl
  | succ k ih => intro i s; exact ih (i + 1) s

/-! Claim theorems. -/

/-- Claim C9: for a name already present in the registry, get_known_class
    returns the registered class and does not abort, regardless of whether a
    Template exists for the name (so in particular when none exists, and when
    the registered entry is a placeholder): the registry lookup happens before
    and short-circuits the Template Catalog search. -/
theorem get_known_class_registered_returns {cat : Catalog} {s : ObjCState}
    {name : String} {c : Class} (f : Nat)
    (hreg : assocLookup name s.classes = some c) :
    get_known_class cat (f + 1) s name = .ok c s := by
  unfold get_known_class
  exact link_hit f false (by simp [get_class, hreg])

/-- Witness for C9: the registered class Obj (address 8) is returned from
    `stReg` even though no catalog entry exists for it. -/
theorem get_known_class_registered_returns_witness :
    get_known_class cat0 1 stReg "Obj" = .ok 8 stReg :=
  get_known_class_registered_returns 0 rfl

/-- Claim C10: for a name already present in the registry, both link_class
    (with either flag) and get_known_class return with the state identical to
    the input state — no registry entry is added or replaced, no host object
    is created, and no guest memory is written; the call is a pure lookup. -/
theorem registered_lookup_pure {cat : Catalog} {s : ObjCState} {name : String}
    {c : Class} (f : Nat) (b : Bool)
    (hreg : assocLookup name s.classes = some c) :
    link_class cat (f + 1) s name b = .ok (if b then read_isa c s else c) s ∧
    get_known_class cat (f + 1) s name = .ok c s := by
  constructor
  · unfold link_class
    exact link_hit f true (by simp [get_class, hreg])
  · unfold get_known_class
    exact link_hit f false (by simp [get_class, hreg])

/-- Witness for C10 at the concrete registered state `stReg`. -/
theorem registered_lookup_pure_witness :
    link_class cat0 1 stReg "Obj" true = .ok (read_isa 8 stReg) stReg ∧
    get_known_class cat0 1 stReg "Obj" = .ok 8 stReg :=
  registered_lookup_pure 0 true rfl

/-- Claim C4: two successive link calls for the same name return consistent
    results: the second call leaves the state of the first call unchanged
    (it is a registry lookup that recomputes nothing), and when the two flag
    values agree the returned references are identical. -/
theorem link_memoized {cat : Catalog} {f1 f2 : Nat} {s s1 s2 : ObjCState}
    {name : String} {b1 b2 : Bool} {r1 r2 : Class}
    (h1 : link_class cat f1 s name b1 = .ok r1 s1)
    (h2 : link_class cat f2 s1 name b2 = .ok r2 s2) :
    s2 = s1 ∧ (b1 = b2 → r2 = r1) := by
  obtain ⟨c, hc, hr1⟩ := link_ok_registered h1
  have hg2 : get_class s1 name b2 = some (if b2 then read_isa c s1 else c) := by
    simp [get_class, hc]
  cases f2 with
  | zero => simp [link_class, link_class_inner] at h2
  | succ f2 =>
    unfold link_class at h2
    rw [link_hit f2 true hg2] at h2
    have h2' := h2.symm
    rw [LinkOut.ok.injEq] at h2'
    obtain ⟨hr2, hs2⟩ := h2'
    refine ⟨hs2, fun hb => ?_⟩
    subst hb
    exact hr2.trans hr1.symm

/-- Witness for C4: linking Foo twice with the class flag gives the same
    reference and the same state. -/
theorem link_memoized_witness :
    outSt w4b = outSt w2a ∧ (false = false → outClass w4b = outClass w2a) :=
  link_memoized
    (show link_class cat0 2 st0 "Foo" false =
      .ok (outClass w2a) (outSt w2a) from rfl)
    (show link_class cat0 2 (outSt w2a) "Foo" false =
      .ok (outClass w4b) (outSt w4b) from rfl)

/-- Claim C6: for a name with no Template and not yet registered, link never
    fails: it returns a class whose host object is an Unimplemented
    placeholder carrying the name with is_metaclass false, whose isa leads to
    the placeholder metaclass with is_metaclass true, and the class is
    recorded in the registry under the name. -/
theorem link_no_template_placeholder {cat : Catalog} {s : ObjCState}
    {name : String} (f : Nat)
    (hmiss : assocLookup name s.classes = none)
    (ht : find_template cat name = none) :
    ∃ c m s', link_class cat (f + 1) s name false = .ok c s' ∧
      assocLookup c s'.objects = some (.unimplemented ⟨name, false⟩) ∧
      read_isa c s' = m ∧
      assocLookup m s'.objects = some (.unimplemented ⟨name, true⟩) ∧
      assocLookup name s'.classes = some c := by
  refine ⟨s.nextAddr + 4, s.nextAddr,
    finishState s name (.unimplemented ⟨name, false⟩)
      (.unimplemented ⟨name, true⟩), ?_, ?_, ?_, ?_, ?_⟩
  · unfold link_class link_class_inner
    rw [get_class_none_iff.mpr hmiss]
    rw [ht]
    rfl
  · simp [finishState_objects, assocLookup]
  · exact readWord_finishState_cls _ _ _ _
  · simp [finishState_objects, assocLookup]
  · simp [finishState_classes, assocLookup]

/-- Witness for C6 with the empty catalog and the never-registered name
    Nope. -/
theorem link_no_template_placeholder_witness :
    ∃ c m s', link_class [] 1 st0 "Nope" false = .ok c s' ∧
      assocLookup c s'.objects =
        some (.unimplemented ⟨"Nope", false⟩) ∧
      read_isa c s' = m ∧
      assocLookup m s'.objects =
        some (.unimplemented ⟨"Nope", true⟩) ∧
      assocLookup "Nope" s'.classes = some c :=
  link_no_template_placeholder 0 rfl rfl

/-- Claim C7: get_known_class panics (instead of producing a placeholder)
    when the name is neither registered nor in the catalog, and otherwise
    behaves identically to link_class with the class-side flag. -/
theorem get_known_class_vs_link {cat : Catalog} (f : Nat) (s : ObjCState)
    (name : String) :
    (assocLookup name s.classes = none → find_template cat name = none →
      get_known_class cat (f + 1) s name = .panicOut) ∧
    ((assocLookup name s.classes).isSome ∨ (find_template cat name).isSome →
      get_known_class cat f s name = link_class cat f s name false) := by
  constructor
  · intro hmiss ht
    unfold get_known_class link_class_inner
    rw [get_class_none_iff.mpr hmiss]
    rw [ht]
    rfl
  · intro hcase
    cases f with
    | zero => rfl
    | succ f =>
      unfold get_known_class link_class link_class_inner
      cases hc : assocLookup name s.classes with
      | some c => simp [get_class, hc]
      | none =>
        cases ht : find_template cat name with
        | none => simp [hc, ht] at hcase
        | some t => rfl

/-- Witness for C7: panic on the unknown name Nope over the empty catalog;
    agreement with link_class on Foo over `cat0`. -/
theorem get_known_class_vs_link_witness :
    get_known_class [] 1 st0 "Nope" = .panicOut ∧
    get_known_class cat0 2 st0 "Foo" = link_class cat0 2 st0 "Foo" false :=
  ⟨(get_known_class_vs_link 0 st0 "Nope").1 rfl rfl,
   (get_known_class_vs_link 2 st0 "Foo").2 (Or.inr rfl)⟩

/-- Claim C8: register_bin_classes and register_bin_categories treat a
    missing section as a no-op (state unchanged, no error) and reject a
    section whose byte size is not a multiple of 4 with a panic (corrupt
    binary). -/
theorem bin_sections_size_guard (bin : MachO) (s : ObjCState) :
    (bin.objc_classlist = none → register_bin_classes bin s = .ok s) ∧
    (∀ sec, bin.objc_classlist = some sec → sec.size % 4 ≠ 0 →
      register_bin_classes bin s = .panicOut) ∧
    (bin.objc_catlist = none → register_bin_categories bin s = .ok s) ∧
    (∀ sec, bin.objc_catlist = some sec → sec.size % 4 ≠ 0 →
      register_bin_categories bin s = .panicOut) := by
  refine ⟨?_, ?_, ?_, ?_⟩
  · intro h
    simp [register_bin_classes, h]
  · intro sec h hs
    simp [register_bin_classes, h, hs]
  · intro h
    simp [register_bin_categories, h]
  · intro sec h hs
    simp [register_bin_categories, h, hs]

/-- Witness for C8: sectionless binary is a no-op; byte size 6 panics, for
    both the class list and the category list. -/
theorem bin_sections_size_guard_witness :
    register_bin_classes binNone st0 = .ok st0 ∧
    register_bin_classes binBad st0 = .panicOut ∧
    register_bin_categories binNone st0 = .ok st0 ∧
    register_bin_categories binBad st0 = .panicOut :=
  ⟨(bin_sections_size_guard binNone st0).1 rfl,
   (bin_sections_size_guard binBad st0).2.1 ⟨0, 6⟩ rfl (by decide),
   (bin_sections_size_guard binNone st0).2.2.1 rfl,
   (bin_sections_size_guard binBad st0).2.2.2 ⟨0, 6⟩ rfl (by decide)⟩

/-- Claim C1 (divergence): register_bin_categories never merges anything —
    apart from the size assert it returns the state unchanged (the source
    only logs each category). In particular, for the concrete binary `binCat`
    holding one category that targets the registered class Foo and carries a
    method list, ingestion leaves the state identical and Foo's method table
    still holds only its base implementation. -/
theorem register_bin_categories_no_merge :
    (∀ (bin : MachO) (s : ObjCState),
      register_bin_categories bin s = .panicOut ∨
      register_bin_categories bin s = .ok s) ∧
    register_bin_categories binCat stCat = .ok stCat ∧
    assocLookup 8 stCat.objects =
      some (.classHost ⟨"Foo", false, 0, [(5, .host 7)]⟩) := by
  refine ⟨?_, rfl, rfl⟩
  intro bin s
  cases hct : bin.objc_catlist with
  | none =>
    right
    simp [register_bin_categories, hct]
  | some sec =>
    by_cases hs : sec.size % 4 = 0
    · right
      simp [register_bin_categories, hct, hs, register_bin_categories_loop_ok]
    · left
      simp [register_bin_categories, hct, hs]

/-- Claim C2: for a fresh name with a Template, the class returned by
    link(name, false) and the metaclass returned by link(name, true) are
    mutually consistent: the class's isa is exactly the returned metaclass,
    and both host objects carry the template's name, with is_metaclass false
    for the class and true for the metaclass. -/
theorem link_pair_consistent {cat : Catalog} {f f' : Nat} {s s1 s2 : ObjCState}
    {name : String} {T : ClassTemplate} {c m : Class}
    (hmiss : assocLookup name s.classes = none)
    (ht : find_template cat name = some T)
    (h1 : link_class cat f s name false = .ok c s1)
    (h2 : link_class cat f' s1 name true = .ok m s2) :
    read_isa c s2 = m ∧
    (∃ sc mt, assocLookup c s2.objects =
        some (.classHost ⟨T.name, false, sc, mt⟩)) ∧
    (∃ scm mmt, assocLookup m s2.objects =
        some (.classHost ⟨T.name, true, scm, mmt⟩)) := by
  obtain ⟨-, -, -, hd⟩ := link_main f h1
  rcases hd with ⟨hg, rfl⟩ | ⟨s₀, cho, mho, hnone, -, rfl, hr, hbranch⟩
  · rw [get_class_none_iff.mpr hmiss] at hg
    exact Option.noConfusion hg
  · rcases hbranch with ⟨t, sc, mt, scm, mmt, ht', rfl, rfl⟩ | ⟨htn, -, -, -⟩
    swap
    · rw [ht] at htn
      exact Option.noConfusion htn
    have hTt : T = t := by
      rw [ht] at ht'
      exact Option.some.inj ht'
    subst hTt
    simp only [Bool.false_eq_true, if_false] at hr
    subst hr
    have hg2 : get_class (finishState s₀ name
        (.classHost ⟨T.name, false, sc, mt⟩)
        (.classHost ⟨T.name, true, scm, mmt⟩)) name true =
        some s₀.nextAddr := by
      simp [get_class, finishState_classes, assocLookup_cons_self, read_isa,
        readWord_finishState_cls]
    cases f' with
    | zero => simp [link_class, link_class_inner] at h2
    | succ f' =>
      unfold link_class at h2
      rw [link_hit f' true hg2] at h2
      rw [LinkOut.ok.injEq] at h2
      obtain ⟨hm, hs2⟩ := h2
      subst hm
      subst hs2
      refine ⟨?_, ⟨sc, mt, ?_⟩, ⟨scm, mmt, ?_⟩⟩
      · exact readWord_finishState_cls _ _ _ _
      · simp [finishState_objects, assocLookup]
      · simp [finishState_objects, assocLookup]

/-- Witness for C2 on the concrete catalog `cat0` and state `st0`. -/
theorem link_pair_consistent_witness :
    read_isa (outClass w2a) (outSt w2b) = outClass w2b ∧
    (∃ sc mt, assocLookup (outClass w2a) (outSt w2b).objects =
        some (.classHost ⟨tmplFoo.name, false, sc, mt⟩)) ∧
    (∃ scm mmt, assocLookup (outClass w2b) (outSt w2b).objects =
        some (.classHost ⟨tmplFoo.name, true, scm, mmt⟩)) :=
  link_pair_consistent
    (show assocLookup "Foo" st0.classes = none from rfl)
    (show find_template cat0 "Foo" = some tmplFoo from rfl)
    (show link_class cat0 2 st0 "Foo" false =
      .ok (outClass w2a) (outSt w2a) from rfl)
    (show link_class cat0 2 (outSt w2a) "Foo" true =
      .ok (outClass w2b) (outSt w2b) from rfl)

/-- Claim C3: after a link call that created the pair for a fresh name
    returns, the isa of the created metaclass is the metaclass itself, and it
    is never nil (so no caller can observe the metaclass with an absent
    isa). -/
theorem metaclass_isa_self {cat : Catalog} {f : Nat} {s s' : ObjCState}
    {name : String} {b : Bool} {r : Class}
    (hmiss : assocLookup name s.classes = none)
    (hpos : 0 < s.nextAddr)
    (h : link_class cat f s name b = .ok r s') :
    ∃ c m, assocLookup name s'.classes = some c ∧ read_isa c s' = m ∧
      read_isa m s' = m ∧ m ≠ nil := by
  obtain ⟨-, -, -, hd⟩ := link_main f h
  rcases hd with ⟨hg, rfl⟩ | ⟨s₀, cho, mho, -, hle, rfl, -, -⟩
  · rw [get_class_none_iff.mpr hmiss] at hg
    exact Option.noConfusion hg
  · refine ⟨s₀.nextAddr + 4, s₀.nextAddr, ?_, ?_, ?_, ?_⟩
    · simp [finishState_classes, assocLookup_cons_self]
    · exact readWord_finishState_cls _ _ _ _
    · exact readWord_finishState_meta _ _ _ _
    · show ¬(s₀.nextAddr = (0 : Nat))
      omega

/-- Witness for C3 at the concrete catalog `cat0` and state `st0`. -/
theorem metaclass_isa_self_witness :
    ∃ c m, assocLookup "Foo" (outSt w2a).classes = some c ∧
      read_isa c (outSt w2a) = m ∧ read_isa m (outSt w2a) = m ∧ m ≠ nil :=
  metaclass_isa_self
    (show assocLookup "Foo" st0.classes = none from rfl)
    (show 0 < st0.nextAddr from by decide)
    (show link_class cat0 2 st0 "Foo" false =
      .ok (outClass w2a) (outSt w2a) from rfl)

/-- Claim C5: linking a fresh Child whose template declares superclass
    Parent (present in the catalog) resolves Parent by recursive link calls
    before constructing the Child pair: afterwards Parent is registered, the
    Child class host object's superclass field is exactly the class that
    link(Parent, false) returns, and following that superclass's isa yields
    exactly the metaclass that link(Parent, true) returns. -/
theorem child_superclass_resolution {cat : Catalog} {f : Nat}
    {s s' : ObjCState} {child parent : String} {TC TP : ClassTemplate}
    {c : Class}
    (hmiss : assocLookup child s.classes = none)
    (htc : find_template cat child = some TC)
    (hsup : TC.superclass = some parent)
    (htp : find_template cat parent = some TP)
    (h : link_class cat f s child false = .ok c s') :
    ∃ pc pm mt,
      (∀ g, link_class cat (g + 1) s' parent false = .ok pc s') ∧
      (∀ g, link_class cat (g + 1) s' parent true = .ok pm s') ∧
      assocLookup c s'.objects =
        some (.classHost ⟨TC.name, false, pc, mt⟩) ∧
      read_isa pc s' = pm ∧
      assocLookup parent s'.classes = some pc := by
  have hne : child ≠ parent := by
    intro he
    have hsup' : TC.superclass = some child := by rw [he]; exact hsup
    exact link_self_super_not_ok hmiss htc hsup' f false true c s' h
  cases f with
  | zero => simp [link_class, link_class_inner] at h
  | succ f =>
    unfold link_class link_class_inner at h
    split at h
    · rename_i c0 heq
      rw [get_class_none_iff.mpr hmiss] at heq
      exact Option.noConfusion heq
    · split at h
      · rename_i tmpl htm
        have htmpl : TC = tmpl := by
          rw [htc] at htm
          exact Option.some.inj htm
        subst htmpl
        split at h
        · rename_i sn hsn
          have hsn' : parent = sn := by
            rw [hsup] at hsn
            exact Option.some.inj hsn
          subst hsn'
          split at h
          · split at h
            · rename_i pc0 s1 heq1
              obtain ⟨cp, hcp, hpc0⟩ := link_ok_registered heq1
              simp only [Bool.false_eq_true, if_false] at hpc0
              have hpc0' : cp = pc0 := hpc0.symm
              subst hpc0'
              split at h
              · rename_i cho heqc
                obtain ⟨mt, rfl⟩ := from_template_shape heqc
                have hg2 : get_class s1 parent true =
                    some (read_isa cp s1) := by
                  simp [get_class, hcp]
                cases f with
                | zero => simp [link_class_inner] at heq1
                | succ f2 =>
                  split at h
                  · rename_i scm s2 heq2
                    rw [link_hit f2 true hg2] at heq2
                    rw [LinkOut.ok.injEq] at heq2
                    obtain ⟨hscm, hs2⟩ := heq2
                    subst hscm
                    subst hs2
                    split at h
                    · rename_i mho heqm
                      obtain ⟨mmt, rfl⟩ := from_template_shape heqm
                      rw [finishPair_eq_false] at h
                      rw [LinkOut.ok.injEq] at h
                      obtain ⟨hc, hs'⟩ := h
                      subst hc
                      subst hs'
                      have hlook : assocLookup parent
                          ((finishState s1 child
                            (.classHost ⟨TC.name, false, cp, mt⟩)
                            (.classHost ⟨TC.name, true, read_isa cp s1, mmt⟩)
                            ).classes) = some cp := by
                        rw [finishState_classes,
                          assocLookup_cons_ne _ _ hne]
                        exact hcp
                      refine ⟨cp, read_isa cp (finishState s1 child
                          (.classHost ⟨TC.name, false, cp, mt⟩)
                          (.classHost ⟨TC.name, true, read_isa cp s1, mmt⟩)),
                        mt, ?_, ?_, ?_, rfl, hlook⟩
                      · intro g
                        exact link_hit g true
                          (by simp [get_class, assocLookup_cons_ne _ _ hne, hcp])
                      · intro g
                        exact link_hit g true
                          (by simp [get_class, assocLookup_cons_ne _ _ hne, hcp])
                      · simp [finishState_objects, assocLookup]
                    · simp at h
                  · simp at h
                  · simp at h
              · simp at h
            · simp at h
            · simp at h
          · simp at h
        · rename_i hsn
          rw [hsup] at hsn
          exact Option.noConfusion hsn
      · rename_i htm
        rw [htc] at htm
        exact Option.noConfusion htm

/-- Witness for C5 on the concrete Parent/Child catalog `cat1`. -/
theorem child_superclass_resolution_witness :
    ∃ pc pm mt,
      (∀ g, link_class cat1 (g + 1) (outSt w5) "Parent" false =
        .ok pc (outSt w5)) ∧
      (∀ g, link_class cat1 (g + 1) (outSt w5) "Parent" true =
        .ok pm (outSt w5)) ∧
      assocLookup (outClass w5) (outSt w5).objects =
        some (.classHost ⟨tmplChild.name, false, pc, mt⟩) ∧
      read_isa pc (outSt w5) = pm ∧
      assocLookup "Parent" (outSt w5).classes = some pc :=
  child_superclass_resolution
    (show assocLookup "Child" st0.classes = none from rfl)
    (show find_template cat1 "Child" = some tmplChild from rfl)
    (show tmplChild.superclass = some "Parent" from rfl)
    (show find_template cat1 "Parent" = some tmplParent from rfl)
    (show link_class cat1 2 st0 "Child" false =
      .ok (outClass w5) (outSt w5) from rfl)

end TouchHLE
